import Mathlib

/-!
Verification of the RPC correlation layer of the wasm-websocket-rust-starter
repository: the wire envelope (shared-types/src/router/mod.rs and
router_gen.rs), the two router implementations (cg-types/src/router.rs and
shared-types/src/router/mod.rs), the cancellation utilities
(cg-types/src/utils.rs), and the shortest-path business logic
(pathfinder-core/src/lib.rs and handler.rs).

Modelling conventions:
* `usize` request ids and indices become `Nat`.
* `f64` coordinates, distances and weights become `ℚ`.  Every concrete value
  appearing in the verified scenarios (small integer coordinates, squared
  distances, the exact result 1.0) is exactly representable in both `f64`
  and `ℚ`, and the square-root calls are abstracted into an explicit
  function parameter `sqrtF : ℚ → ℚ`, so no rounding behaviour is elided
  in the statements proved here.
* `DevString` (a structured developer message in cg-types/src/types.rs) is
  modelled by `String`; none of the claims depend on its internal structure.
* Logging (`log::warn!`, `log::debug!`) is a side effect outside the model.
-/

namespace WasmWs

/-- A 2D point (shared-types/src/lib.rs `Point`); `f64` fields modelled by ℚ. -/
structure Point where
  x : ℚ
  y : ℚ
deriving DecidableEq, Repr

/-- An edge between two point indices (shared-types/src/lib.rs `Edge`).
The Rust field names are `from`/`to`; `from` is reserved in Lean, so the
fields are called `fromIdx`/`toIdx` here. -/
structure Edge where
  fromIdx : Nat
  toIdx : Nat
deriving DecidableEq, Repr

/-- Result of a shortest path computation (shared-types/src/lib.rs `PathResult`). -/
structure PathResult where
  path : List Nat
  distance : ℚ
deriving DecidableEq, Repr

/-- Graph statistics (shared-types/src/lib.rs `GraphMetrics`). -/
structure GraphMetrics where
  node_count : Nat
  edge_count : Nat
  total_edge_length : ℚ
  avg_edge_length : ℚ
deriving DecidableEq, Repr

/-- Parameters of `find_shortest_path` (shared-types/src/lib.rs `ShortestPathParams`). -/
structure ShortestPathParams where
  points : List Point
  edges : List Edge
  start_idx : Nat
  end_idx : Nat
deriving DecidableEq, Repr

/-- Parameters of `compute_graph_metrics` (shared-types/src/lib.rs `GraphMetricsParams`). -/
structure GraphMetricsParams where
  points : List Point
  edges : List Edge
deriving DecidableEq, Repr

/-- The generated call union (shared-types/src/router/router_gen.rs `CallGen`):
one variant per supported remote operation, carrying its typed parameters. -/
inductive CallGen where
  | find_shortest_path (params : ShortestPathParams)
  | compute_graph_metrics (params : GraphMetricsParams)
deriving DecidableEq, Repr

/-- The generated `Next` payload union
(shared-types/src/router/router_gen.rs `ResponseNextGen`). -/
inductive ResponseNextGen where
  | find_shortest_path (r : PathResult)
  | compute_graph_metrics (m : GraphMetrics)
deriving DecidableEq, Repr

/-- The response outcome union (shared-types/src/router/mod.rs `ResponseEnum`,
identical shape in cg-types/src/router.rs). -/
inductive ResponseEnum where
  | Aborted (reason : String)
  | Error (error : String)
  | Complete (notes : String)
  | N (next : ResponseNextGen)
deriving DecidableEq, Repr

/-- A wire response: the tuple struct `WireResponse(usize, ResponseEnum)`
(shared-types/src/router/mod.rs, cg-types/src/router.rs). -/
structure WireResponse where
  id : Nat
  response : ResponseEnum
deriving DecidableEq, Repr

/-- The request union (shared-types/src/router/mod.rs `RequestEnum`,
identical shape in cg-types/src/router.rs): `Abort(usize, String)` or
`Call(usize, CallGen)`.  `Request` is a `#[serde(transparent)]` wrapper
around it, so it is not modelled separately. -/
inductive RequestEnum where
  | Abort (id : Nat) (reason : String)
  | Call (id : Nat) (call : CallGen)
deriving DecidableEq, Repr

/-! ## JSON wire encoding (claim C8)

serde_json encodes the derived `Serialize`/`Deserialize` implementations as
follows: externally tagged enums (`{"Variant": payload}`), tuple variants as
arrays, tuple structs as arrays, plain structs as objects in field
declaration order.  JSON documents are modelled by the `Json` AST below;
numbers carry a ℚ (every finite `f64` is a rational and serde_json
round-trips finite `f64` values exactly).  The decoders below consume the
canonical field order that the encoder produces; serde additionally accepts
permuted fields, which a round trip never exercises. -/

/-- JSON value AST. -/
inductive Json where
  | null
  | num (q : ℚ)
  | str (s : String)
  | arr (xs : List Json)
  | obj (fields : List (String × Json))

/-- Encode a `usize` as a JSON number. -/
def encNat (n : Nat) : Json := .num n

/-- Decode a `usize`: a JSON number that is a nonnegative integer. -/
def decNat : Json → Option Nat
  | .num q => if q.den = 1 ∧ 0 ≤ q.num then some q.num.toNat else none
  | _ => none

/-- Encode an `f64` (modelled as ℚ) as a JSON number. -/
def encRat (q : ℚ) : Json := .num q

/-- Decode an `f64` (modelled as ℚ). -/
def decRat : Json → Option ℚ
  | .num q => some q
  | _ => none

/-- Encode a `Point` (struct with fields `x`, `y`). -/
def encPoint (p : Point) : Json := .obj [("x", encRat p.x), ("y", encRat p.y)]

/-- Decode a `Point`. -/
def decPoint : Json → Option Point
  | .obj [("x", jx), ("y", jy)] => do
    let x ← decRat jx
    let y ← decRat jy
    pure ⟨x, y⟩
  | _ => none

/-- Encode an `Edge` (struct with fields `from`, `to`). -/
def encEdge (e : Edge) : Json := .obj [("from", encNat e.fromIdx), ("to", encNat e.toIdx)]

/-- Decode an `Edge`. -/
def decEdge : Json → Option Edge
  | .obj [("from", jf), ("to", jt)] => do
    let f ← decNat jf
    let t ← decNat jt
    pure ⟨f, t⟩
  | _ => none

/-- Decode a list of `usize`s. -/
def decNatList : List Json → Option (List Nat)
  | [] => some []
  | j :: js => do
    let n ← decNat j
    let ns ← decNatList js
    pure (n :: ns)

/-- Decode a list of `Point`s. -/
def decPointList : List Json → Option (List Point)
  | [] => some []
  | j :: js => do
    let p ← decPoint j
    let ps ← decPointList js
    pure (p :: ps)

/-- Decode a list of `Edge`s. -/
def decEdgeList : List Json → Option (List Edge)
  | [] => some []
  | j :: js => do
    let e ← decEdge j
    let es ← decEdgeList js
    pure (e :: es)

/-- Encode a `PathResult` (fields `path`, `distance`). -/
def encPathResult (r : PathResult) : Json :=
  .obj [("path", .arr (r.path.map encNat)), ("distance", encRat r.distance)]

/-- Decode a `PathResult`. -/
def decPathResult : Json → Option PathResult
  | .obj [("path", .arr pj), ("distance", jd)] => do
    let path ← decNatList pj
    let d ← decRat jd
    pure ⟨path, d⟩
  | _ => none

/-- Encode a `GraphMetrics`. -/
def encGraphMetrics (m : GraphMetrics) : Json :=
  .obj [("node_count", encNat m.node_count), ("edge_count", encNat m.edge_count),
        ("total_edge_length", encRat m.total_edge_length),
        ("avg_edge_length", encRat m.avg_edge_length)]

/-- Decode a `GraphMetrics`. -/
def decGraphMetrics : Json → Option GraphMetrics
  | .obj [("node_count", jn), ("edge_count", je), ("total_edge_length", jt),
          ("avg_edge_length", ja)] => do
    let n ← decNat jn
    let e ← decNat je
    let t ← decRat jt
    let a ← decRat ja
    pure ⟨n, e, t, a⟩
  | _ => none

/-- Encode `ShortestPathParams` (fields in declaration order). -/
def encShortestPathParams (p : ShortestPathParams) : Json :=
  .obj [("points", .arr (p.points.map encPoint)), ("edges", .arr (p.edges.map encEdge)),
        ("start_idx", encNat p.start_idx), ("end_idx", encNat p.end_idx)]

/-- Decode `ShortestPathParams`. -/
def decShortestPathParams : Json → Option ShortestPathParams
  | .obj [("points", .arr pj), ("edges", .arr ej), ("start_idx", js), ("end_idx", je)] => do
    let ps ← decPointList pj
    let es ← decEdgeList ej
    let s ← decNat js
    let e ← decNat je
    pure ⟨ps, es, s, e⟩
  | _ => none

/-- Encode `GraphMetricsParams`. -/
def encGraphMetricsParams (p : GraphMetricsParams) : Json :=
  .obj [("points", .arr (p.points.map encPoint)), ("edges", .arr (p.edges.map encEdge))]

/-- Decode `GraphMetricsParams`. -/
def decGraphMetricsParams : Json → Option GraphMetricsParams
  | .obj [("points", .arr pj), ("edges", .arr ej)] => do
    let ps ← decPointList pj
    let es ← decEdgeList ej
    pure ⟨ps, es⟩
  | _ => none

/-- Encode a `CallGen`: externally tagged newtype variant,
`{"find_shortest_path": params}` or `{"compute_graph_metrics": params}`. -/
def encCallGen : CallGen → Json
  | .find_shortest_path p => .obj [("find_shortest_path", encShortestPathParams p)]
  | .compute_graph_metrics p => .obj [("compute_graph_metrics", encGraphMetricsParams p)]

/-- Decode a `CallGen`. -/
def decCallGen : Json → Option CallGen
  | .obj [("find_shortest_path", j)] => (decShortestPathParams j).map .find_shortest_path
  | .obj [("compute_graph_metrics", j)] => (decGraphMetricsParams j).map .compute_graph_metrics
  | _ => none

/-- Encode a `ResponseNextGen`. -/
def encResponseNextGen : ResponseNextGen → Json
  | .find_shortest_path r => .obj [("find_shortest_path", encPathResult r)]
  | .compute_graph_metrics m => .obj [("compute_graph_metrics", encGraphMetrics m)]

/-- Decode a `ResponseNextGen`. -/
def decResponseNextGen : Json → Option ResponseNextGen
  | .obj [("find_shortest_path", j)] => (decPathResult j).map .find_shortest_path
  | .obj [("compute_graph_metrics", j)] => (decGraphMetrics j).map .compute_graph_metrics
  | _ => none

/-- Encode a `ResponseEnum`: externally tagged,
`{"Aborted": s} | {"Error": s} | {"Complete": s} | {"N": payload}`. -/
def encResponseEnum : ResponseEnum → Json
  | .Aborted s => .obj [("Aborted", .str s)]
  | .Error s => .obj [("Error", .str s)]
  | .Complete s => .obj [("Complete", .str s)]
  | .N r => .obj [("N", encResponseNextGen r)]

/-- Decode a `ResponseEnum`. -/
def decResponseEnum : Json → Option ResponseEnum
  | .obj [("Aborted", .str s)] => some (.Aborted s)
  | .obj [("Error", .str s)] => some (.Error s)
  | .obj [("Complete", .str s)] => some (.Complete s)
  | .obj [("N", j)] => (decResponseNextGen j).map .N
  | _ => none

/-- Encode a `WireResponse`: the tuple struct serializes as a 2-element
array `[id, outcome]`. -/
def encWireResponse (w : WireResponse) : Json :=
  .arr [encNat w.id, encResponseEnum w.response]

/-- Decode a `WireResponse`. -/
def decWireResponse : Json → Option WireResponse
  | .arr [jn, jr] => do
    let n ← decNat jn
    let r ← decResponseEnum jr
    pure ⟨n, r⟩
  | _ => none

/-- Encode a `RequestEnum`: externally tagged tuple variants,
`{"Abort": [id, reason]}` or `{"Call": [id, call]}`. -/
def encRequest : RequestEnum → Json
  | .Abort id reason => .obj [("Abort", .arr [encNat id, .str reason])]
  | .Call id call => .obj [("Call", .arr [encNat id, encCallGen call])]

/-- Decode a `RequestEnum`. -/
def decRequest : Json → Option RequestEnum
  | .obj [("Abort", .arr [jn, .str s])] => (decNat jn).map (fun n => .Abort n s)
  | .obj [("Call", .arr [jn, jc])] => do
    let n ← decNat jn
    let c ← decCallGen jc
    pure (.Call n c)
  | _ => none

/-! ### Round-trip lemmas for C8 -/

theorem decNat_encNat (n : Nat) : decNat (encNat n) = some n := by
  simp [decNat, encNat, Rat.den_natCast, Rat.num_natCast]

theorem decRat_encRat (q : ℚ) : decRat (encRat q) = some q := rfl

theorem decPoint_encPoint (p : Point) : decPoint (encPoint p) = some p := rfl

theorem decEdge_encEdge (e : Edge) : decEdge (encEdge e) = some e := by
  simp [decEdge, encEdge, decNat_encNat, Option.bind_eq_bind]

theorem decNatList_enc (l : List Nat) : decNatList (l.map encNat) = some l := by
  induction l with
  | nil => rfl
  | cons n ns ih => simp [decNatList, decNat_encNat, ih]

theorem decPointList_enc (l : List Point) : decPointList (l.map encPoint) = some l := by
  induction l with
  | nil => rfl
  | cons p ps ih => simp [decPointList, decPoint_encPoint, ih]

theorem decEdgeList_enc (l : List Edge) : decEdgeList (l.map encEdge) = some l := by
  induction l with
  | nil => rfl
  | cons e es ih => simp [decEdgeList, decEdge_encEdge, ih]

theorem decPathResult_enc (r : PathResult) : decPathResult (encPathResult r) = some r := by
  simp [decPathResult, encPathResult, decNatList_enc, decRat_encRat]

theorem decGraphMetrics_enc (m : GraphMetrics) :
    decGraphMetrics (encGraphMetrics m) = some m := by
  simp [decGraphMetrics, encGraphMetrics, decNat_encNat, decRat_encRat]

theorem decShortestPathParams_enc (p : ShortestPathParams) :
    decShortestPathParams (encShortestPathParams p) = some p := by
  simp [decShortestPathParams, encShortestPathParams, decPointList_enc, decEdgeList_enc,
    decNat_encNat]

theorem decGraphMetricsParams_enc (p : GraphMetricsParams) :
    decGraphMetricsParams (encGraphMetricsParams p) = some p := by
  simp [decGraphMetricsParams, encGraphMetricsParams, decPointList_enc, decEdgeList_enc]

theorem decCallGen_enc (c : CallGen) : decCallGen (encCallGen c) = some c := by
  cases c with
  | find_shortest_path p => simp [decCallGen, encCallGen, decShortestPathParams_enc]
  | compute_graph_metrics p => simp [decCallGen, encCallGen, decGraphMetricsParams_enc]

theorem decResponseNextGen_enc (r : ResponseNextGen) :
    decResponseNextGen (encResponseNextGen r) = some r := by
  cases r with
  | find_shortest_path p => simp [decResponseNextGen, encResponseNextGen, decPathResult_enc]
  | compute_graph_metrics m => simp [decResponseNextGen, encResponseNextGen, decGraphMetrics_enc]

theorem decResponseEnum_enc (r : ResponseEnum) :
    decResponseEnum (encResponseEnum r) = some r := by
  cases r with
  | N p => simp [decResponseEnum, encResponseEnum, decResponseNextGen_enc]
  | Aborted s => rfl
  | Error s => rfl
  | Complete s => rfl

/-- C8: serializing then deserializing any Request (Call or Abort) and any
WireResponse (with Next, Error, Complete, or Aborted outcome) yields a value
equal to the original. -/
theorem c8_wire_roundtrip (r : RequestEnum) (w : WireResponse) :
    decRequest (encRequest r) = some r ∧ decWireResponse (encWireResponse w) = some w := by
  constructor
  · cases r with
    | Abort id reason => simp [decRequest, encRequest, decNat_encNat]
    | Call id call => simp [decRequest, encRequest, decNat_encNat, decCallGen_enc]
  · simp [decWireResponse, encWireResponse, decNat_encNat, decResponseEnum_enc]

/-! ## The cg-types router (cg-types/src/router.rs, cg-types/src/utils.rs)

`ResponseRouter<RCtx>` owns two maps behind `RwLock`s:
`abort_controllers : HashMap<(RCtx, usize), AbortController>` and
`mvp_rctxs : HashMap<usize, Weak<RCtx>>`.  An `AbortController`
(cg-types/src/utils.rs) is an `Arc<AtomicBool>`; it is modelled as an index
(`tok`) into a flag heap `flags : Nat → Bool`, fresh controllers being
allocated at `next_tok`.  An `AbortSignal` shares the controller's cell, so
a signal is the same index.  `Weak<RCtx>` references are modelled by an
arena of `Arc` cells: `alive : Nat → Bool` records whether the strong side
of cell `c` is still retained, and `mvp_rctxs` stores the cell together
with the context value; upgrading succeeds exactly while the cell is alive.
HashMaps become functions from keys to `Option` values, so each key holds
at most one entry, exactly as in the source. -/

/-- Mutable state of a `ResponseRouter<RCtx>`. -/
structure RouterState (RCtx : Type) where
  next_tok : Nat
  flags : Nat → Bool
  abort_controllers : RCtx × Nat → Option Nat
  next_cell : Nat
  alive : Nat → Bool
  mvp_rctxs : Nat → Option (Nat × RCtx)

/-- `ResponseRouter::new`: both maps start empty, no controller or Arc cell
has been allocated. -/
def routerNew (RCtx : Type) : RouterState RCtx where
  next_tok := 0
  flags := fun _ => false
  abort_controllers := fun _ => none
  next_cell := 0
  alive := fun _ => false
  mvp_rctxs := fun _ => none

/-- `AbortController::abort` (cg-types/src/utils.rs): store `true` into the
shared flag; idempotent. -/
def abortTok {RCtx : Type} (st : RouterState RCtx) (tok : Nat) : RouterState RCtx :=
  { st with flags := fun t => if t = tok then true else st.flags t }

/-- `AbortSignal::is_aborted` / `AbortController::is_aborted`: load the
shared flag. -/
def is_aborted {RCtx : Type} (st : RouterState RCtx) (tok : Nat) : Bool :=
  st.flags tok

/-- The live object bound to one in-flight request id
(cg-types/src/router.rs `ActiveCall<RCtx>`): the request id, the strong
`Arc<RCtx>` reference (cell index plus value; the `Arc` is created inside
`create_responder` and never cloned, so the `ActiveCall` holds its only
strong reference), and the owning side of the cancellation token.  The
back-reference to the router is the shared `RouterState` itself. -/
structure ActiveCall (RCtx : Type) where
  request_id : Nat
  cell : Nat
  reply_context : RCtx
  tok : Nat

/-- `ResponseRouter::create_responder` (cg-types/src/router.rs 242-268):
allocate a fresh `AbortController`, insert it under `(reply_context, id)`
capturing any existing controller, insert a weak reference to a fresh
`Arc<RCtx>` into `mvp_rctxs` keyed by id alone, then abort the captured
old controller if there was one, and hand back the `ActiveCall`. -/
def create_responder {RCtx : Type} [DecidableEq RCtx] (st : RouterState RCtx)
    (request_id : Nat) (reply_context : RCtx) : RouterState RCtx × ActiveCall RCtx :=
  let tok := st.next_tok
  let existing := st.abort_controllers (reply_context, request_id)
  let cell := st.next_cell
  let st1 : RouterState RCtx :=
    { next_tok := tok + 1
      flags := st.flags
      abort_controllers := fun k =>
        if k = (reply_context, request_id) then some tok else st.abort_controllers k
      next_cell := cell + 1
      alive := fun c => if c = cell then true else st.alive c
      mvp_rctxs := fun i => if i = request_id then some (cell, reply_context) else st.mvp_rctxs i }
  let st2 :=
    match existing with
    | some old => abortTok st1 old
    | none => st1
  (st2, ⟨request_id, cell, reply_context, tok⟩)

/-- Dropping an `ActiveCall`: `reply_context: Arc<RCtx>` is the only strong
reference to its cell (see `ActiveCall`), so the drop deallocates the cell
and every weak reference to it stops upgrading. -/
def dropActiveCall {RCtx : Type} (st : RouterState RCtx) (ac : ActiveCall RCtx) :
    RouterState RCtx :=
  { st with alive := fun c => if c = ac.cell then false else st.alive c }

/-- `ResponseRouter::mvp_get_reply_context_from_request_id`
(cg-types/src/router.rs 223-230): read `mvp_rctxs`, upgrade the weak
reference, clone the context out of it. -/
def mvp_get_reply_context_from_request_id {RCtx : Type} (st : RouterState RCtx)
    (request_id : Nat) : Option RCtx :=
  match st.mvp_rctxs request_id with
  | some (cell, ctx) => if st.alive cell then some ctx else none
  | none => none

/-- One invocation of a reply-sink method by business logic: `next` on the
emitter, or a terminal `error`/`complete`. -/
inductive SinkOp where
  | next (v : ResponseNextGen)
  | error (e : String)
  | complete (notes : String)
deriving DecidableEq, Repr

/-- The `ResponseEnum` a sink invocation routes to (`Emitter::next` wraps
into `N`, `Completer::error` into `Error`, `Completer::complete` into
`Complete`). -/
def SinkOp.toResponse : SinkOp → ResponseEnum
  | .next v => .N v
  | .error e => .Error e
  | .complete notes => .Complete notes

/-- The `WireResponse` produced for request `id` by one sink invocation:
`ResponseRouter::respond` forwards `WireResponse(request_id, response)` to
the wire response sender. -/
def wireOfOp (id : Nat) (op : SinkOp) : WireResponse :=
  ⟨id, op.toResponse⟩

/-- `ResponseRouter::send_request` (cg-types/src/router.rs 269-293).
For `Abort(id, reason)`: look up `(reply_context, id)` in
`abort_controllers`; if present abort it (and log), else only log a
warning.  For `Call(id, call)` the source delegates to the build-generated
`router_gen::gen_call`, whose file (cg-types/src/router/router_gen.rs) is
generated and absent from the repository snapshot.  Modelled from the spec:
gen_call creates the responder via `create_responder`, wraps it into the
observer, and invokes the handler method matching the call tag, passing it
the reply sink; the handler's synchronous sink invocations are abstracted
as the list `handler call`, each of which `respond` forwards to the
transport sender as a `(reply_context, WireResponse)` pair.
The second component of the result is the list of wire responses handed to
the `WireResponseSender`, in order. -/
def send_request {RCtx : Type} [DecidableEq RCtx] (st : RouterState RCtx)
    (request : RequestEnum) (reply_context : RCtx) (handler : CallGen → List SinkOp) :
    RouterState RCtx × List (RCtx × WireResponse) :=
  match request with
  | .Abort id _reason =>
    match st.abort_controllers (reply_context, id) with
    | some controller => (abortTok st controller, [])
    | none => (st, [])
  | .Call id call =>
    let (st1, ac) := create_responder st id reply_context
    (st1, (handler call).map fun op => (ac.reply_context, wireOfOp ac.request_id op))

/-! ### Reply sink: ObserverImpl, Emitter, Completer (cg-types/src/router.rs)

`ObserverImpl<T>` owns the boxed responder (the `ActiveCall`) plus a
`current_time` captured at dispatch; `into_parts` wraps the responder in an
`Arc` shared by the `Emitter` (which also grabs the abort signal) and the
`Completer`.  Sink methods route through `ActiveCall::respond`, which calls
`ResponseRouter::respond`, which forwards
`WireResponse(request_id, response)` to the transport sender immediately;
the sender invocation log is modelled as a list of
`(reply_context, WireResponse)` pairs that each call appends to. -/

/-- `ObserverImpl<T>` (cg-types/src/router.rs 100-104). -/
structure ObserverImpl (RCtx : Type) where
  responder : ActiveCall RCtx
  current_time : Int

/-- `Emitter<T>` (cg-types/src/router.rs 115-121): shares the responder,
holds the abort signal (same flag cell as the controller) and the dispatch
timestamp.  The source derives `Clone` for it. -/
structure Emitter (RCtx : Type) where
  responder : ActiveCall RCtx
  signal : Nat
  current_time : Int

/-- `Completer<T>` (cg-types/src/router.rs 123-127): shares the responder.
The source derives `Clone` for it (`#[derive(Clone)]`), so a completer can
be duplicated before being consumed; duplicability needs no modelling step
here because Lean values are freely copyable. -/
structure Completer (RCtx : Type) where
  responder : ActiveCall RCtx

/-- `ObserverImpl::into_parts` (cg-types/src/router.rs 166-182): a total
function producing the emitter (with the responder's abort signal and the
captured timestamp) and the completer over the same responder. -/
def ObserverImpl.into_parts {RCtx : Type} (o : ObserverImpl RCtx) :
    Emitter RCtx × Completer RCtx :=
  (⟨o.responder, o.responder.tok, o.current_time⟩, ⟨o.responder⟩)

/-- `Emitter::next` (cg-types/src/router.rs 130-135): wrap the value into
`ResponseEnum::N` and forward one `WireResponse` to the sender. -/
def Emitter.next {RCtx : Type} (em : Emitter RCtx) (v : ResponseNextGen)
    (sent : List (RCtx × WireResponse)) : List (RCtx × WireResponse) :=
  sent ++ [(em.responder.reply_context, wireOfOp em.responder.request_id (.next v))]

/-- `Completer::error` (cg-types/src/router.rs 154-156): forward one
terminal `Error` `WireResponse` to the sender.  In Rust the receiver is
`self` by value. -/
def Completer.error {RCtx : Type} (co : Completer RCtx) (e : String)
    (sent : List (RCtx × WireResponse)) : List (RCtx × WireResponse) :=
  sent ++ [(co.responder.reply_context, wireOfOp co.responder.request_id (.error e))]

/-- `Completer::complete` (cg-types/src/router.rs 157-159): forward one
terminal `Complete` `WireResponse` to the sender.  In Rust the receiver is
`self` by value. -/
def Completer.complete {RCtx : Type} (co : Completer RCtx) (notes : String)
    (sent : List (RCtx × WireResponse)) : List (RCtx × WireResponse) :=
  sent ++ [(co.responder.reply_context, wireOfOp co.responder.request_id (.complete notes))]

/-- Execute a sequence of sink invocations on the two halves obtained from
`into_parts`, threading the sender's invocation log. -/
def run_sink_ops {RCtx : Type} (o : ObserverImpl RCtx) (ops : List SinkOp)
    (sent : List (RCtx × WireResponse)) : List (RCtx × WireResponse) :=
  let (em, co) := o.into_parts
  ops.foldl
    (fun l op =>
      match op with
      | .next v => em.next v l
      | .error e => co.error e l
      | .complete notes => co.complete notes l)
    sent

/-! ## The shared-types router (shared-types/src/router/mod.rs) -/

/-- `ObserverImpl<T>` of shared-types (mod.rs 70-74): request id plus the
boxed sender; the sender is left implicit because every sink method only
appends to its log. -/
structure SObserverImpl where
  request_id : Nat

/-- `Emitter<T>` of shared-types (mod.rs 36-40). -/
structure SEmitter where
  request_id : Nat

/-- `Completer<T>` of shared-types (mod.rs 53-57). -/
structure SCompleter where
  request_id : Nat

/-- Outcome of running a piece of Rust code in the model: a normal return,
an `Err` value, or a `panic!`. -/
inductive RunResult (α : Type) where
  | ok (a : α)
  | err (e : String)
  | panic (msg : String)
deriving Repr, DecidableEq

/-- True exactly when the run ended in a `panic!`. -/
def RunResult.isPanic {α : Type} : RunResult α → Bool
  | .panic _ => true
  | _ => false

/-- `ObserverImpl::into_parts` of shared-types (mod.rs 85-93): it moves the
sender out and then unconditionally executes
`panic!("into_parts not yet supported - use next() and complete() on ObserverImpl directly")`. -/
def SObserverImpl.into_parts (_o : SObserverImpl) : RunResult (SEmitter × SCompleter) :=
  .panic "into_parts not yet supported - use next() and complete() on ObserverImpl directly"

/-- `handle_request` of shared-types (mod.rs 143-157): an `Abort(id, reason)`
is answered by synchronously sending `WireResponse(id, Aborted(reason))` to
the sender; a `Call(id, call)` goes through `gen_call`
(router_gen.rs 35-54), which invokes the handler method matching the call's
tag with an `ObserverImpl::new(id, sender)`; the handler's synchronous sink
invocations are abstracted as the list `handler call`.  The result is the
list of wire responses handed to the sender, in order.  This router keeps
no registry and no cancellation state. -/
def shared_handle_request (handler : CallGen → List SinkOp) (request : RequestEnum) :
    List WireResponse :=
  match request with
  | .Abort id reason => [⟨id, .Aborted reason⟩]
  | .Call id call => (handler call).map (wireOfOp id)

/-! ## Router theorems (claims C1 - C7) -/

/-- C1, counterexample: the claim quantifies over both cited dispatch
functions, but `handle_request` of shared-types answers `Abort(5, "stop")`
by itself sending `WireResponse(5, Aborted("stop"))` to the transport
sender, so dispatching an Abort does produce a WireResponse there. -/
theorem c1_counterexample :
    shared_handle_request (fun _ => []) (.Abort 5 "stop") = [⟨5, .Aborted "stop"⟩] ∧
    shared_handle_request (fun _ => []) (.Abort 5 "stop") ≠ ([] : List WireResponse) := by
  constructor
  · rfl
  · simp [shared_handle_request]

/-- C1 (amended): dispatching `Abort(id, reason)` through the cg-types
`ResponseRouter` sends nothing to the transport sender and leaves every
piece of router state unchanged except the cancellation flags, where its
only effect is to trip the flag of the controller registered under
`(reply_context, id)`, if any. -/
theorem c1_abort_only_trips_flag {RCtx : Type} [DecidableEq RCtx] (st : RouterState RCtx)
    (id : Nat) (reason : String) (ctx : RCtx) (handler : CallGen → List SinkOp) :
    (send_request st (.Abort id reason) ctx handler).2 = [] ∧
    (send_request st (.Abort id reason) ctx handler).1.abort_controllers =
      st.abort_controllers ∧
    (send_request st (.Abort id reason) ctx handler).1.mvp_rctxs = st.mvp_rctxs ∧
    (send_request st (.Abort id reason) ctx handler).1.alive = st.alive ∧
    (send_request st (.Abort id reason) ctx handler).1.next_tok = st.next_tok ∧
    (send_request st (.Abort id reason) ctx handler).1.next_cell = st.next_cell ∧
    ∀ t : Nat, (send_request st (.Abort id reason) ctx handler).1.flags t = true ↔
      (st.flags t = true ∨ st.abort_controllers (ctx, id) = some t) := by
  cases h : st.abort_controllers (ctx, id) with
  | none => simp [send_request, h]
  | some tok =>
    refine ⟨by simp [send_request, h], by simp [send_request, h, abortTok],
      by simp [send_request, h, abortTok], by simp [send_request, h, abortTok],
      by simp [send_request, h, abortTok], by simp [send_request, h, abortTok], ?_⟩
    intro t
    by_cases ht : t = tok
    · subst ht
      simp [send_request, h, abortTok]
    · have ht2 : tok ≠ t := fun hc => ht hc.symm
      simp [send_request, h, abortTok, ht, ht2]

/-- C1, witness: on the fresh router, aborting request 3 sends nothing. -/
theorem c1_witness :
    (send_request (routerNew Unit) (.Abort 3 "stop") () (fun _ => [])).2 = [] :=
  (c1_abort_only_trips_flag (routerNew Unit) 3 "stop" () (fun _ => [])).1

/-- C2: when `create_responder` runs for a `(reply_context, id)` key that
already holds a registered controller, the old controller's flag is
tripped (so its observer's abort signal reads cancelled), and the new call
is registered under the key with a fresh, distinct token whose flag is
untripped.  The registry maps each key to at most one controller by
construction, so at most one registered call per key exists afterwards.
The hypotheses say that registered tokens were allocated below `next_tok`
and that flags at or above `next_tok` are still clear, both invariants of
the allocation discipline. -/
theorem c2_reissued_call_supersedes {RCtx : Type} [DecidableEq RCtx]
    (st : RouterState RCtx) (id : Nat) (ctx : RCtx) (old_tok : Nat)
    (hreg : st.abort_controllers (ctx, id) = some old_tok)
    (htok : ∀ k t, st.abort_controllers k = some t → t < st.next_tok)
    (hfresh : ∀ t, st.next_tok ≤ t → st.flags t = false) :
    is_aborted (create_responder st id ctx).1 old_tok = true ∧
    is_aborted (create_responder st id ctx).1 (create_responder st id ctx).2.tok = false ∧
    (create_responder st id ctx).1.abort_controllers (ctx, id) =
      some (create_responder st id ctx).2.tok ∧
    (create_responder st id ctx).2.tok ≠ old_tok := by
  have hlt : old_tok < st.next_tok := htok _ _ hreg
  have hne : st.next_tok ≠ old_tok := Nat.ne_of_gt hlt
  refine ⟨?_, ?_, ?_, ?_⟩
  · simp [create_responder, hreg, abortTok, is_aborted]
  · simp [create_responder, hreg, abortTok, is_aborted, hne, hfresh st.next_tok le_rfl]
  · simp [create_responder, hreg, abortTok]
  · exact hne

/-- C2, witness: register request 7 once on the fresh router, then register
it again; the first call's token (token 0) is tripped and the second call's
token is untripped. -/
theorem c2_witness :
    is_aborted (create_responder ((create_responder (routerNew Unit) 7 ()).1) 7 ()).1 0 = true ∧
    is_aborted (create_responder ((create_responder (routerNew Unit) 7 ()).1) 7 ()).1
      ((create_responder ((create_responder (routerNew Unit) 7 ()).1) 7 ()).2.tok) = false := by
  have h := c2_reissued_call_supersedes ((create_responder (routerNew Unit) 7 ()).1) 7 () 0
    rfl
    (by intro k t ht
        have hv : (if k = (((), 7) : Unit × Nat) then some 0 else none) = some t := ht
        split at hv
        · cases hv
          exact Nat.zero_lt_one
        · cases hv)
    (fun _ _ => rfl)
  exact ⟨h.1, h.2.1⟩

/-- C3, counterexample: `Completer<T>` derives `Clone`
(cg-types/src/router.rs line 123), so business logic holding a completer
can clone it, invoke `complete` on the original and then `complete` on the
clone; both invocations go straight through `respond`, which has no
one-shot guard, so two terminal `Complete` wire responses for the same
request id 7 are sent, silently and without any fatal condition. -/
theorem c3_counterexample :
    (⟨⟨7, 0, (), 0⟩⟩ : Completer Unit).complete "done again"
        ((⟨⟨7, 0, (), 0⟩⟩ : Completer Unit).complete "done" []) =
      [((), ⟨7, .Complete "done"⟩), ((), ⟨7, .Complete "done again"⟩)] := by
  rfl

/-- C3 (amended): a second terminal invocation on the same `Completer`
value is prevented statically because `complete`/`error` take `self` by
value; but `Completer` derives `Clone` and the respond path performs no
one-shot check, so terminal methods invoked on a clone of an
already-consumed completer unconditionally append a second terminal
`WireResponse` for the same request id to the sender log — a silent double
send, not a rejected fatal condition. -/
theorem c3_terminal_send_unguarded {RCtx : Type} (co : Completer RCtx)
    (sent : List (RCtx × WireResponse)) (n1 n2 : String) :
    co.complete n2 (co.complete n1 sent) =
      sent ++ [(co.responder.reply_context, ⟨co.responder.request_id, .Complete n1⟩),
               (co.responder.reply_context, ⟨co.responder.request_id, .Complete n2⟩)] := by
  simp [Completer.complete, wireOfOp, SinkOp.toResponse]

/-- C4, counterexample: the claim quantifies over both cited
implementations, but `ObserverImpl::into_parts` of shared-types
unconditionally panics instead of returning the split. -/
theorem c4_counterexample :
    (SObserverImpl.into_parts ⟨1⟩).isPanic = true ∧
    SObserverImpl.into_parts ⟨1⟩ =
      .panic "into_parts not yet supported - use next() and complete() on ObserverImpl directly" := by
  exact ⟨rfl, rfl⟩

/-- C4 (amended): for the cg-types router, `into_parts` returns normally
(it is a total function; the Rust body cannot panic): the emitter and the
completer it yields are bound to the observer's request id, the emitter
routes each emitted value to a `Next` outcome for that id, and the
completer routes its termination to an `Error` or `Complete` outcome for
that id. -/
theorem c4_into_parts_split {RCtx : Type} (o : ObserverImpl RCtx) (v : ResponseNextGen)
    (e n : String) (sent : List (RCtx × WireResponse)) :
    o.into_parts.1.responder.request_id = o.responder.request_id ∧
    o.into_parts.2.responder.request_id = o.responder.request_id ∧
    o.into_parts.1.next v sent =
      sent ++ [(o.responder.reply_context, ⟨o.responder.request_id, .N v⟩)] ∧
    o.into_parts.2.error e sent =
      sent ++ [(o.responder.reply_context, ⟨o.responder.request_id, .Error e⟩)] ∧
    o.into_parts.2.complete n sent =
      sent ++ [(o.responder.reply_context, ⟨o.responder.request_id, .Complete n⟩)] := by
  refine ⟨rfl, rfl, rfl, rfl, rfl⟩

/-- C5: while the ActiveCall produced by `create_responder` is retained,
`mvp_get_reply_context_from_request_id` upgrades the weak reference and
returns the registered reply context; once that ActiveCall (holding the
only strong `Arc<RCtx>` reference) is dropped, the lookup returns none. -/
theorem c5_lookup_context {RCtx : Type} [DecidableEq RCtx] (st : RouterState RCtx)
    (id : Nat) (ctx : RCtx) :
    mvp_get_reply_context_from_request_id (create_responder st id ctx).1 id = some ctx ∧
    mvp_get_reply_context_from_request_id
      (dropActiveCall (create_responder st id ctx).1 (create_responder st id ctx).2) id =
      none := by
  constructor <;>
  · cases hex : st.abort_controllers (ctx, id) <;>
      simp [create_responder, hex, abortTok, mvp_get_reply_context_from_request_id,
        dropActiveCall]

/-- C6: dispatching `Abort(id, _)` when no controller is registered under
`(reply_context, id)` leaves the router state untouched, mutates no
cancellation token, sends nothing, and returns normally (the source only
logs a warning in this branch). -/
theorem c6_abort_unknown_id {RCtx : Type} [DecidableEq RCtx] (st : RouterState RCtx)
    (id : Nat) (reason : String) (ctx : RCtx) (handler : CallGen → List SinkOp)
    (h : st.abort_controllers (ctx, id) = none) :
    send_request st (.Abort id reason) ctx handler = (st, []) := by
  simp [send_request, h]

/-- C6, witness: aborting request 9 on the fresh router (which has no
registered calls) is a no-op. -/
theorem c6_witness :
    send_request (routerNew Unit) (.Abort 9 "noop") () (fun _ => []) =
      (routerNew Unit, []) :=
  c6_abort_unknown_id (routerNew Unit) 9 "noop" () (fun _ => []) rfl

/-- C7: running any sequence of sink invocations on the two halves of a
call's observer delivers to the transport sender exactly one WireResponse
per invocation, for that call's request id, in invocation order — each
`respond` is an independent immediate forward appended to the sender log,
with no reordering buffer. -/
theorem c7_per_id_ordering {RCtx : Type} (o : ObserverImpl RCtx) (ops : List SinkOp)
    (sent : List (RCtx × WireResponse)) :
    run_sink_ops o ops sent =
      sent ++ ops.map (fun op => (o.responder.reply_context,
        wireOfOp o.responder.request_id op)) := by
  induction ops generalizing sent with
  | nil => simp [run_sink_ops]
  | cons op rest ih =>
    have hstep : run_sink_ops o (op :: rest) sent =
        run_sink_ops o rest
          (sent ++ [(o.responder.reply_context, wireOfOp o.responder.request_id op)]) := by
      cases op <;> rfl
    rw [hstep, ih]
    simp

/-! ## Pathfinder core (pathfinder-core/src/lib.rs, handler.rs)

`compute_shortest_path` builds a petgraph undirected graph with `f64`
weights and runs `petgraph::algo::dijkstra` with an early exit at the goal
node.  Modelling decisions, each tied to the source:
* Node indices are the positions `0 .. points.len`, exactly as in the
  source (`nodes[i]` is the i-th added node, and `NodeIndex::index` is the
  position), so nodes are plain `Nat`s here.
* `Vec`/slice indexing out of bounds and `HashMap` indexing on a missing
  key `panic!`; runs are therefore valued in `RunResult`.
* petgraph stores each node's incident edges most-recent-first and
  iterates `edges(v)`/`neighbors(v)` in that order; this is modelled by
  scanning the reversed edge-insertion list (`adjOf`, `find_edge`).  (For a
  node that is source of some edges and target of others petgraph walks the
  outgoing chain before the incoming one; the claims proved here only
  depend on orders where the two agree.)
* Rust's `BinaryHeap` pop order among equal scores is unspecified; `popMin`
  pops the first minimal element.  The verified scenario yields the same
  score map under either tie order.
* The main loop runs on fuel `2 * edges + 2`; the Rust loop pops at most
  `1 + Σ degrees = 1 + 2·edges` heap entries, so the fuel never truncates
  it.  The reconstruction loop likewise runs on fuel and maps exhaustion to
  the panic outcome (the Rust loop would not terminate in that situation;
  it is unreachable in every run verified here).
* `f64` square roots are an explicit parameter `sqrtF : ℚ → ℚ`; `powi(2)`
  is exact squaring in IEEE as in ℚ.  The `1e-10` tolerance constant is
  modelled as the rational `1 / 10 ^ 10` (the `f64` literal differs from it
  by less than one part in 10^16, and every comparison against it in the
  verified runs has slack of at least a factor of 10^9). -/

/-- A weighted edge of the built graph, in insertion order
(`graph.add_edge(nodes[edge.from], nodes[edge.to], distance)`). -/
structure WEdge where
  src : Nat
  dst : Nat
  w : ℚ
deriving DecidableEq, Repr

/-- `euclidean_distance` (pathfinder-core/src/lib.rs 10-12). -/
def euclidean_distance (sqrtF : ℚ → ℚ) (p1 p2 : Point) : ℚ :=
  sqrtF ((p2.x - p1.x) * (p2.x - p1.x) + (p2.y - p1.y) * (p2.y - p1.y))

/-- The graph-building loop of `compute_shortest_path`
(pathfinder-core/src/lib.rs 59-67): for each edge, index both endpoints in
`points` (panicking out of bounds, first out-of-bounds edge first) and add
the weighted edge. -/
def build_graph (sqrtF : ℚ → ℚ) (points : List Point) : List Edge → RunResult (List WEdge)
  | [] => .ok []
  | e :: rest =>
    match points[e.fromIdx]?, points[e.toIdx]? with
    | some p1, some p2 =>
      match build_graph sqrtF points rest with
      | .ok g => .ok (⟨e.fromIdx, e.toIdx, euclidean_distance sqrtF p1 p2⟩ :: g)
      | .err m => .err m
      | .panic m => .panic m
    | _, _ => .panic "index out of bounds"

/-- petgraph `graph.edges(v)` for an undirected graph: all incident edges,
most recently added first, each yielding the opposite endpoint and the
weight. -/
def adjOf (g : List WEdge) (v : Nat) : List (Nat × ℚ) :=
  g.reverse.filterMap fun e =>
    if e.src = v then some (e.dst, e.w)
    else if e.dst = v then some (e.src, e.w)
    else none

/-- Scan of an edge list for the first edge connecting `a` and `b`. -/
def find_edge_scan : List WEdge → Nat → Nat → Option ℚ
  | [], _, _ => none
  | e :: es, a, b =>
    if (e.src = a ∧ e.dst = b) ∨ (e.src = b ∧ e.dst = a) then some e.w
    else find_edge_scan es a b

/-- petgraph `graph.find_edge(a, b)` on an undirected graph: the most
recently added edge connecting `a` and `b`, if any; the caller reads its
weight. -/
def find_edge (g : List WEdge) (a b : Nat) : Option ℚ :=
  find_edge_scan g.reverse a b

/-- `BinaryHeap::pop` on `MinScored` entries: remove a minimal-score entry
(the first such, in queue order). -/
def popMin : List (ℚ × Nat) → Option ((ℚ × Nat) × List (ℚ × Nat))
  | [] => none
  | x :: xs =>
    match popMin xs with
    | none => some (x, [])
    | some (m, rest) => if x.1 ≤ m.1 then some (x, xs) else some (m, x :: rest)

/-- `HashMap` score lookup (`scores.get`); the association list never holds
a key twice, so the first hit is the entry. -/
def slookup : List (Nat × ℚ) → Nat → Option ℚ
  | [], _ => none
  | p :: ps, k => if p.1 = k then some p.2 else slookup ps k

/-- `HashMap` score insert/overwrite (`scores.entry(..).insert`). -/
def supdate : List (Nat × ℚ) → Nat → ℚ → List (Nat × ℚ)
  | [], k, v => [(k, v)]
  | p :: ps, k, v => if p.1 = k then (k, v) :: ps else p :: supdate ps k v

/-- One edge-relaxation step of petgraph's dijkstra: skip visited targets;
otherwise compute `next_score = node_score + weight` and insert it if the
target is undiscovered or improved, pushing the target onto the heap. -/
def relaxOne (visited : List Nat) (node_score : ℚ)
    (acc : List (Nat × ℚ) × List (ℚ × Nat)) (nb : Nat × ℚ) :
    List (Nat × ℚ) × List (ℚ × Nat) :=
  if nb.1 ∈ visited then acc
  else
    let next_score := node_score + nb.2
    match slookup acc.1 nb.1 with
    | some old =>
      if next_score < old then (supdate acc.1 nb.1 next_score, acc.2 ++ [(next_score, nb.1)])
      else acc
    | none => (supdate acc.1 nb.1 next_score, acc.2 ++ [(next_score, nb.1)])

/-- The main loop of `petgraph::algo::dijkstra` with goal-directed early
exit: pop a minimal entry; skip already-visited nodes; stop at the goal;
otherwise relax all incident edges and mark the node visited. -/
def dloop (adj : Nat → List (Nat × ℚ)) (goal : Nat) :
    Nat → List Nat → List (Nat × ℚ) → List (ℚ × Nat) → List (Nat × ℚ)
  | 0, _, scores, _ => scores
  | fuel + 1, visited, scores, queue =>
    match popMin queue with
    | none => scores
    | some ((node_score, node), rest) =>
      if node ∈ visited then dloop adj goal fuel visited scores rest
      else if node = goal then scores
      else
        let acc := (adj node).foldl (relaxOne visited node_score) (scores, rest)
        dloop adj goal fuel (node :: visited) acc.1 acc.2

/-- `petgraph::algo::dijkstra(&graph, start, Some(goal), |e| *e.weight())`:
scores start at `{start: 0}` with `start` on the heap. -/
def dijkstra (g : List WEdge) (start goal : Nat) : List (Nat × ℚ) :=
  dloop (adjOf g) goal (2 * g.length + 2) [] [(start, 0)] [(0, start)]

/-- The neighbor search of `reconstruct_path` (pathfinder-core/src/lib.rs
27-41): `graph.neighbors(current).find(..)` — the first neighbor whose
recorded distance plus the weight of its connecting edge matches the
current distance within 1e-10; neighbors without a recorded distance or a
connecting edge are rejected. -/
def find_prev (g : List WEdge) (distances : List (Nat × ℚ)) (current : Nat)
    (current_dist : ℚ) : List Nat → Option Nat
  | [] => none
  | neighbor :: rest =>
    match slookup distances neighbor, find_edge g neighbor current with
    | some neighbor_dist, some edge_weight =>
      if |neighbor_dist + edge_weight - current_dist| < 1 / 10 ^ 10 then some neighbor
      else find_prev g distances current current_dist rest
    | _, _ => find_prev g distances current current_dist rest

/-- The loop of `reconstruct_path` (pathfinder-core/src/lib.rs 20-45):
starting from `end`, repeatedly find a neighbor whose recorded distance
plus the connecting edge weight equals the current distance (within 1e-10),
pushing it onto the path, until `start` is reached.  `distances[&current]`
panics on a missing key; a failed neighbor search is
`.expect("Path reconstruction failed")`. -/
def reconstruct_loop (g : List WEdge) (distances : List (Nat × ℚ)) (start : Nat) :
    Nat → Nat → List Nat → RunResult (List Nat)
  | 0, _, _ => .panic "Path reconstruction failed"
  | fuel + 1, current, path =>
    if current = start then .ok path
    else
      match slookup distances current with
      | none => .panic "key not found"
      | some current_dist =>
        match find_prev g distances current current_dist ((adjOf g current).map Prod.fst) with
        | some prev => reconstruct_loop g distances start fuel prev (path ++ [prev])
        | none => .panic "Path reconstruction failed"

/-- `reconstruct_path` (pathfinder-core/src/lib.rs 15-49): run the loop
from `end` with initial path `[end]`, then reverse. -/
def reconstruct_path (g : List WEdge) (distances : List (Nat × ℚ)) (start ende : Nat) :
    RunResult (List Nat) :=
  match reconstruct_loop g distances start (distances.length + 1) ende [ende] with
  | .ok path => .ok path.reverse
  | .err m => .err m
  | .panic m => .panic m

/-- `compute_shortest_path` (pathfinder-core/src/lib.rs 53-86): build the
graph (panicking on any out-of-range edge endpoint), index the start and
end nodes (panicking out of range), run dijkstra, and either reconstruct
the path (yielding `PathResult { path, distance }`) or return
`Err("No path found")` when the goal has no recorded distance. -/
def compute_shortest_path (sqrtF : ℚ → ℚ) (points : List Point) (edges : List Edge)
    (start_idx end_idx : Nat) : RunResult PathResult :=
  match build_graph sqrtF points edges with
  | .err m => .err m
  | .panic m => .panic m
  | .ok g =>
    if start_idx < points.length then
      if end_idx < points.length then
        let result := dijkstra g start_idx end_idx
        match slookup result end_idx with
        | some distance =>
          match reconstruct_path g result start_idx end_idx with
          | .ok path => .ok ⟨path, distance⟩
          | .err m => .err m
          | .panic m => .panic m
        | none => .err "No path found"
      else .panic "index out of bounds"
    else .panic "index out of bounds"

/-- Handler `Context` (shared-types/src/context.rs). -/
structure Context where
  session_id : String
  request_id : Nat
  user_id : Option String
  created_at : Nat

/-- The cache key string `format!("path:{}:{}:{}", ctx.session_id,
params.start_idx, params.end_idx)` of the handler. -/
def cache_key (ctx : Context) (start_idx end_idx : Nat) : String :=
  "path:" ++ ctx.session_id ++ ":" ++ toString start_idx ++ ":" ++ toString end_idx

/-- `Storage::get` followed by the handler's `serde_json::from_slice`
check: stored values are modelled as already-decoded `PathResult`s (bytes
that fail to deserialize behave like absent entries, which the handler
skips identically). -/
def storage_get : List (String × PathResult) → String → Option PathResult
  | [], _ => none
  | p :: ps, k => if p.1 = k then some p.2 else storage_get ps k

/-- `Storage::set`: last-write-wins insert/overwrite. -/
def storage_set : List (String × PathResult) → String → PathResult →
    List (String × PathResult)
  | [], k, v => [(k, v)]
  | p :: ps, k, v => if p.1 = k then (k, v) :: ps else p :: storage_set ps k v

/-- `PathfinderHandler::find_shortest_path` (pathfinder-core/src/handler.rs
21-65): consult the optional cache; on a hit emit the cached result and
complete with "Path found (cached)"; otherwise run
`compute_shortest_path`, cache and emit a success followed by
"Path found successfully", or route an error to the terminal `Error`
outcome.  The first component lists the sink invocations the handler makes
on its observer, in order (a panic escaping `compute_shortest_path`
propagates); the second is the storage afterwards. -/
def find_shortest_path (sqrtF : ℚ → ℚ) (storage : Option (List (String × PathResult)))
    (ctx : Context) (params : ShortestPathParams) :
    RunResult (List SinkOp) × Option (List (String × PathResult)) :=
  let cached :=
    match storage with
    | some store => storage_get store (cache_key ctx params.start_idx params.end_idx)
    | none => none
  match cached with
  | some cached_result =>
    (.ok [.next (.find_shortest_path cached_result), .complete "Path found (cached)"], storage)
  | none =>
    match compute_shortest_path sqrtF params.points params.edges params.start_idx
        params.end_idx with
    | .ok result =>
      let storage2 :=
        match storage with
        | some store =>
          some (storage_set store (cache_key ctx params.start_idx params.end_idx) result)
        | none => none
      (.ok [.next (.find_shortest_path result), .complete "Path found successfully"], storage2)
    | .err e => (.ok [.error e], storage)
    | .panic m => (.panic m, storage)

/-! ## Reachability and the dijkstra score invariant (claim C10) -/

/-- Reachability in the undirected graph described by an edge list:
the nodes connected to `s` by a chain of edges used in either direction. -/
inductive Reach (edges : List Edge) (s : Nat) : Nat → Prop where
  | refl : Reach edges s s
  | fwd {a b : Nat} : Reach edges s a → (⟨a, b⟩ : Edge) ∈ edges → Reach edges s b
  | bwd {a b : Nat} : Reach edges s a → (⟨b, a⟩ : Edge) ∈ edges → Reach edges s b

theorem build_graph_panics_of_oob (sqrtF : ℚ → ℚ) (points : List Point) :
    ∀ edges : List Edge,
      (∃ e ∈ edges, points.length ≤ e.fromIdx ∨ points.length ≤ e.toIdx) →
      build_graph sqrtF points edges = .panic "index out of bounds" := by
  intro edges
  induction edges with
  | nil =>
    rintro ⟨e, he, _⟩
    cases he
  | cons e rest ih =>
    rintro ⟨f, hf, hoob⟩
    rcases List.mem_cons.mp hf with rfl | hfr
    · rcases hoob with h | h
      · have hn : points[f.fromIdx]? = none := List.getElem?_eq_none h
        simp [build_graph, hn]
      · cases hg : points[f.fromIdx]? with
        | none => simp [build_graph, hg]
        | some p1 =>
          have hn : points[f.toIdx]? = none := List.getElem?_eq_none h
          simp [build_graph, hg, hn]
    · have hr := ih ⟨f, hfr, hoob⟩
      cases hg1 : points[e.fromIdx]? with
      | none => simp [build_graph, hg1]
      | some p1 =>
        cases hg2 : points[e.toIdx]? with
        | none => simp [build_graph, hg1, hg2]
        | some p2 => simp [build_graph, hg1, hg2, hr]

theorem build_graph_ok_of_inbounds (sqrtF : ℚ → ℚ) (points : List Point) :
    ∀ edges : List Edge,
      (∀ e ∈ edges, e.fromIdx < points.length ∧ e.toIdx < points.length) →
      ∃ g, build_graph sqrtF points edges = .ok g ∧
        ∀ we ∈ g, (⟨we.src, we.dst⟩ : Edge) ∈ edges := by
  intro edges
  induction edges with
  | nil =>
    intro _
    exact ⟨[], rfl, by simp⟩
  | cons e rest ih =>
    intro h
    obtain ⟨h1, h2⟩ := h e (List.mem_cons_self e rest)
    obtain ⟨g, hg, hmem⟩ := ih fun x hx => h x (List.mem_cons_of_mem e hx)
    refine ⟨⟨e.fromIdx, e.toIdx,
      euclidean_distance sqrtF (points.get ⟨e.fromIdx, h1⟩) (points.get ⟨e.toIdx, h2⟩)⟩ :: g,
      ?_, ?_⟩
    · simp [build_graph, List.getElem?_eq_getElem h1, List.getElem?_eq_getElem h2, hg,
        List.get_eq_getElem]
    · intro we hwe
      rcases List.mem_cons.mp hwe with rfl | hh
      · exact List.mem_cons_self e rest
      · exact List.mem_cons_of_mem e (hmem we hh)

theorem mem_adjOf {g : List WEdge} {v : Nat} {nb : Nat × ℚ} (h : nb ∈ adjOf g v) :
    ∃ we ∈ g, (we.src = v ∧ we.dst = nb.1) ∨ (we.dst = v ∧ we.src = nb.1) := by
  rcases List.mem_filterMap.mp h with ⟨we, hwe, hval⟩
  refine ⟨we, List.mem_reverse.mp hwe, ?_⟩
  by_cases h1 : we.src = v
  · rw [if_pos h1] at hval
    cases hval
    exact Or.inl ⟨h1, rfl⟩
  · rw [if_neg h1] at hval
    by_cases h2 : we.dst = v
    · rw [if_pos h2] at hval
      cases hval
      exact Or.inr ⟨h2, rfl⟩
    · rw [if_neg h2] at hval
      cases hval

theorem reach_step {edges : List Edge} {s : Nat} {g : List WEdge}
    (hsub : ∀ we ∈ g, (⟨we.src, we.dst⟩ : Edge) ∈ edges)
    {v : Nat} (hv : Reach edges s v) {nb : Nat × ℚ} (hnb : nb ∈ adjOf g v) :
    Reach edges s nb.1 := by
  rcases mem_adjOf hnb with ⟨we, hwe, ⟨h1, h2⟩ | ⟨h1, h2⟩⟩
  · have he := hsub we hwe
    rw [h1, h2] at he
    exact Reach.fwd hv he
  · have he := hsub we hwe
    rw [h1, h2] at he
    exact Reach.bwd hv he

theorem popMin_mem : ∀ {q : List (ℚ × Nat)} {m : ℚ × Nat} {rest : List (ℚ × Nat)},
    popMin q = some (m, rest) → m ∈ q ∧ ∀ x ∈ rest, x ∈ q := by
  intro q
  induction q with
  | nil =>
    intro m rest h
    cases h
  | cons x xs ih =>
    intro m rest h
    cases hp : popMin xs with
    | none =>
      simp only [popMin, hp] at h
      cases h
      refine ⟨List.mem_cons_self x xs, ?_⟩
      intro y hy
      cases hy
    | some pr =>
      obtain ⟨m2, rest2⟩ := pr
      simp only [popMin, hp] at h
      by_cases hle : x.1 ≤ m2.1
      · rw [if_pos hle] at h
        cases h
        exact ⟨List.mem_cons_self x xs, fun y hy => List.mem_cons_of_mem x hy⟩
      · rw [if_neg hle] at h
        cases h
        obtain ⟨hm, hr⟩ := ih hp
        refine ⟨List.mem_cons_of_mem x hm, ?_⟩
        intro y hy
        rcases List.mem_cons.mp hy with rfl | hy2
        · exact List.mem_cons_self y xs
        · exact List.mem_cons_of_mem x (hr y hy2)

theorem mem_supdate : ∀ {scores : List (Nat × ℚ)} {k : Nat} {v : ℚ} {p : Nat × ℚ},
    p ∈ supdate scores k v → p.1 = k ∨ p ∈ scores := by
  intro scores
  induction scores with
  | nil =>
    intro k v p hp
    simp only [supdate, List.mem_singleton] at hp
    exact Or.inl (by rw [hp])
  | cons q ps ih =>
    intro k v p hp
    simp only [supdate] at hp
    by_cases hq : q.1 = k
    · rw [if_pos hq] at hp
      rcases List.mem_cons.mp hp with rfl | hmem
      · exact Or.inl rfl
      · exact Or.inr (List.mem_cons_of_mem q hmem)
    · rw [if_neg hq] at hp
      rcases List.mem_cons.mp hp with hpq | hmem
      · exact Or.inr (by rw [hpq]; exact List.mem_cons_self q ps)
      · rcases ih hmem with h | h
        · exact Or.inl h
        · exact Or.inr (List.mem_cons_of_mem q h)

theorem relaxOne_inv {edges : List Edge} {s : Nat} (visited : List Nat) (node_score : ℚ)
    (scores : List (Nat × ℚ)) (queue : List (ℚ × Nat)) (nb : Nat × ℚ)
    (hs : ∀ p ∈ scores, Reach edges s p.1) (hq : ∀ x ∈ queue, Reach edges s x.2)
    (hreach : Reach edges s nb.1) :
    (∀ p ∈ (relaxOne visited node_score (scores, queue) nb).1, Reach edges s p.1) ∧
    (∀ x ∈ (relaxOne visited node_score (scores, queue) nb).2, Reach edges s x.2) := by
  have hpair : ∀ p ∈ supdate scores nb.1 (node_score + nb.2), Reach edges s p.1 := by
    intro p hp
    rcases mem_supdate hp with h | h
    · rw [h]
      exact hreach
    · exact hs p h
  have hqueue : ∀ x ∈ queue ++ [(node_score + nb.2, nb.1)], Reach edges s x.2 := by
    intro x hx
    rcases List.mem_append.mp hx with h | h
    · exact hq x h
    · rw [List.mem_singleton.mp h]
      exact hreach
  by_cases hv : nb.1 ∈ visited
  · simp only [relaxOne, if_pos hv]
    exact ⟨hs, hq⟩
  · cases hl : slookup scores nb.1 with
    | none =>
      simp only [relaxOne, if_neg hv, hl]
      exact ⟨hpair, hqueue⟩
    | some old =>
      by_cases hlt : node_score + nb.2 < old
      · simp only [relaxOne, if_neg hv, hl, if_pos hlt]
        exact ⟨hpair, hqueue⟩
      · simp only [relaxOne, if_neg hv, hl, if_neg hlt]
        exact ⟨hs, hq⟩

theorem relax_fold_inv {edges : List Edge} {s : Nat} {g : List WEdge}
    (hsub : ∀ we ∈ g, (⟨we.src, we.dst⟩ : Edge) ∈ edges)
    (visited : List Nat) (node : Nat) (node_score : ℚ) (hnode : Reach edges s node) :
    ∀ l : List (Nat × ℚ), (∀ nb ∈ l, nb ∈ adjOf g node) →
      ∀ (scores : List (Nat × ℚ)) (queue : List (ℚ × Nat)),
        (∀ p ∈ scores, Reach edges s p.1) → (∀ x ∈ queue, Reach edges s x.2) →
        (∀ p ∈ (l.foldl (relaxOne visited node_score) (scores, queue)).1,
          Reach edges s p.1) ∧
        (∀ x ∈ (l.foldl (relaxOne visited node_score) (scores, queue)).2,
          Reach edges s x.2) := by
  intro l
  induction l with
  | nil =>
    intro _ scores queue hs hq
    exact ⟨hs, hq⟩
  | cons nb rest ih =>
    intro hl scores queue hs hq
    have hnb : nb ∈ adjOf g node := hl nb (List.mem_cons_self nb rest)
    have hreach : Reach edges s nb.1 := reach_step hsub hnode hnb
    have hrest : ∀ x ∈ rest, x ∈ adjOf g node := fun x hx => hl x (List.mem_cons_of_mem nb hx)
    rw [List.foldl_cons]
    have hstep := relaxOne_inv visited node_score scores queue nb hs hq hreach
    have hpr : relaxOne visited node_score (scores, queue) nb =
        ((relaxOne visited node_score (scores, queue) nb).1,
         (relaxOne visited node_score (scores, queue) nb).2) := rfl
    rw [hpr]
    exact ih hrest _ _ hstep.1 hstep.2

theorem dloop_reachable {edges : List Edge} {s : Nat} {g : List WEdge}
    (hsub : ∀ we ∈ g, (⟨we.src, we.dst⟩ : Edge) ∈ edges) (target : Nat) :
    ∀ (fuel : Nat) (visited : List Nat) (scores : List (Nat × ℚ)) (queue : List (ℚ × Nat)),
      (∀ p ∈ scores, Reach edges s p.1) →
      (∀ x ∈ queue, Reach edges s x.2) →
      ∀ p ∈ dloop (adjOf g) target fuel visited scores queue, Reach edges s p.1 := by
  intro fuel
  induction fuel with
  | zero =>
    intro visited scores queue hs _ p hp
    exact hs p hp
  | succ n ih =>
    intro visited scores queue hs hq p hp
    cases hpop : popMin queue with
    | none =>
      simp only [dloop, hpop] at hp
      exact hs p hp
    | some pr =>
      obtain ⟨⟨node_score, node⟩, rest⟩ := pr
      have hmem := popMin_mem hpop
      have hnode : Reach edges s node := hq (node_score, node) hmem.1
      have hrest : ∀ x ∈ rest, Reach edges s x.2 := fun x hx => hq x (hmem.2 x hx)
      simp only [dloop, hpop] at hp
      by_cases hv : node ∈ visited
      · rw [if_pos hv] at hp
        exact ih visited scores rest hs hrest p hp
      · rw [if_neg hv] at hp
        by_cases htgt : node = target
        · rw [if_pos htgt] at hp
          exact hs p hp
        · rw [if_neg htgt] at hp
          have hinv := relax_fold_inv hsub visited node node_score hnode (adjOf g node)
            (fun nb hnb => hnb) scores rest hs hrest
          exact ih _ _ _ hinv.1 hinv.2 p hp

theorem slookup_mem : ∀ {scores : List (Nat × ℚ)} {k : Nat} {d : ℚ},
    slookup scores k = some d → ∃ p ∈ scores, p.1 = k := by
  intro scores
  induction scores with
  | nil =>
    intro k d h
    cases h
  | cons p ps ih =>
    intro k d h
    simp only [slookup] at h
    by_cases hp : p.1 = k
    · exact ⟨p, List.mem_cons_self p ps, hp⟩
    · rw [if_neg hp] at h
      obtain ⟨q, hq, hk⟩ := ih h
      exact ⟨q, List.mem_cons_of_mem p hq, hk⟩

theorem compute_shortest_path_no_path (sqrtF : ℚ → ℚ) (points : List Point)
    (edges : List Edge) (s e : Nat)
    (hin : ∀ ed ∈ edges, ed.fromIdx < points.length ∧ ed.toIdx < points.length)
    (hs : s < points.length) (he : e < points.length)
    (hnr : ¬ Reach edges s e) :
    compute_shortest_path sqrtF points edges s e = .err "No path found" := by
  obtain ⟨g, hg, hsub⟩ := build_graph_ok_of_inbounds sqrtF points edges hin
  have hreach : ∀ p ∈ dijkstra g s e, Reach edges s p.1 := by
    rw [dijkstra]
    apply dloop_reachable hsub
    · intro p hp
      rw [List.mem_singleton.mp hp]
      exact Reach.refl
    · intro x hx
      rw [List.mem_singleton.mp hx]
      exact Reach.refl
  have hnone : slookup (dijkstra g s e) e = none := by
    cases hl : slookup (dijkstra g s e) e with
    | none => rfl
    | some d =>
      obtain ⟨p, hp, hk⟩ := slookup_mem hl
      exact absurd (hk ▸ hreach p hp) hnr
  simp [compute_shortest_path, hg, hs, he, hnone]

theorem compute_shortest_path_oob (sqrtF : ℚ → ℚ) (points : List Point)
    (edges : List Edge) (s e : Nat)
    (h : (∃ ed ∈ edges, points.length ≤ ed.fromIdx ∨ points.length ≤ ed.toIdx) ∨
         points.length ≤ s ∨ points.length ≤ e) :
    compute_shortest_path sqrtF points edges s e = .panic "index out of bounds" := by
  by_cases hedge : ∃ ed ∈ edges, points.length ≤ ed.fromIdx ∨ points.length ≤ ed.toIdx
  · have hb := build_graph_panics_of_oob sqrtF points edges hedge
    simp [compute_shortest_path, hb]
  · have hin : ∀ ed ∈ edges, ed.fromIdx < points.length ∧ ed.toIdx < points.length := by
      intro ed hed
      refine ⟨?_, ?_⟩
      · by_contra hc
        exact hedge ⟨ed, hed, Or.inl (Nat.le_of_not_lt hc)⟩
      · by_contra hc
        exact hedge ⟨ed, hed, Or.inr (Nat.le_of_not_lt hc)⟩
    obtain ⟨g, hg, _⟩ := build_graph_ok_of_inbounds sqrtF points edges hin
    rcases h with h | h | h
    · exact absurd h hedge
    · simp [compute_shortest_path, hg, Nat.not_lt.mpr h]
    · by_cases hs2 : s < points.length
      · simp [compute_shortest_path, hg, hs2, Nat.not_lt.mpr h]
      · simp [compute_shortest_path, hg, hs2]

/-! ## Claims C9 and C10 -/

/-- The handler context used in the verified scenarios. -/
def testContext : Context := ⟨"test-session", 1, none, 0⟩

/-- Scenario A: points `[(0,0),(1,0),(0,1)]`, edges `[(0,1),(1,2),(0,2)]`,
shortest path requested from index 0 to index 2. -/
def scenarioA : ShortestPathParams :=
  ⟨[⟨0, 0⟩, ⟨1, 0⟩, ⟨0, 1⟩], [⟨0, 1⟩, ⟨1, 2⟩, ⟨0, 2⟩], 0, 2⟩

set_option maxHeartbeats 1600000 in
/-- C9: dispatching the `find_shortest_path` call of scenario A with no
cached entry makes the handler emit exactly one `Next` carrying path
`[0, 2]` with distance `1`, followed by one `Complete`, and no `Error`.
The square-root function is abstract; the only fact used is
`sqrtF 1 = 1`, which holds exactly of IEEE `f64` `sqrt` (the weight
`sqrtF 2` of the edge `(1,2)` is carried through the run but never
compared, because dijkstra settles the goal node before relaxing node 1's
edges and path reconstruction accepts neighbor 0 first). -/
theorem c9_scenario_a (sqrtF : ℚ → ℚ) (h1 : sqrtF 1 = 1) :
    find_shortest_path sqrtF none testContext scenarioA =
      (.ok [.next (.find_shortest_path ⟨[0, 2], 1⟩), .complete "Path found successfully"],
        none) := by
  have hg : (fun q : ℚ => if q = 1 then (1 : ℚ) else sqrtF q) = sqrtF := by
    funext q
    by_cases hq : q = 1
    · simp [hq, h1]
    · simp [hq]
  rw [← hg]
  norm_num [find_shortest_path, compute_shortest_path, build_graph, euclidean_distance,
    scenarioA, testContext, dijkstra, dloop, popMin, relaxOne, slookup, supdate, adjOf,
    reconstruct_path, reconstruct_loop, find_edge, find_edge_scan, find_prev,
    List.foldl_cons, List.foldl_nil, List.filterMap_cons, List.filterMap_nil,
    -Prod.mk_zero_zero]

/-- C9, witness: the scenario evaluated at a concrete square-root function
satisfying the hypothesis. -/
theorem c9_witness :
    find_shortest_path (fun q : ℚ => if q = 1 then 1 else 0) none testContext scenarioA =
      (.ok [.next (.find_shortest_path ⟨[0, 2], 1⟩), .complete "Path found successfully"],
        none) :=
  c9_scenario_a (fun q : ℚ => if q = 1 then 1 else 0) (by norm_num)

/-- C10: `compute_shortest_path` is total only for in-range inputs.  If
any edge endpoint, the start index, or the end index is at least the
number of points, it panics with an out-of-bounds index instead of
returning the `Err` result; for in-range inputs whose start and end are
not connected it returns `Err("No path found")`, and the handler then
emits no `Next` — its only sink invocation is the terminal `Error`. -/
theorem c10_bounds_and_no_path (sqrtF : ℚ → ℚ) (points : List Point) (edges : List Edge)
    (s e : Nat) (ctx : Context) :
    (((∃ ed ∈ edges, points.length ≤ ed.fromIdx ∨ points.length ≤ ed.toIdx) ∨
        points.length ≤ s ∨ points.length ≤ e) →
      compute_shortest_path sqrtF points edges s e = .panic "index out of bounds") ∧
    ((∀ ed ∈ edges, ed.fromIdx < points.length ∧ ed.toIdx < points.length) →
      s < points.length → e < points.length → ¬ Reach edges s e →
      compute_shortest_path sqrtF points edges s e = .err "No path found" ∧
      find_shortest_path sqrtF none ctx ⟨points, edges, s, e⟩ =
        (.ok [.error "No path found"], none)) := by
  constructor
  · exact compute_shortest_path_oob sqrtF points edges s e
  · intro hin hs he hnr
    have hc := compute_shortest_path_no_path sqrtF points edges s e hin hs he hnr
    exact ⟨hc, by simp [find_shortest_path, hc]⟩

/-- C10, witness: a one-point graph whose single edge mentions index 1
panics, and scenario B (points `[(0,0),(1,0),(10,10)]`, one edge `(0,1)`,
request from 0 to 2) yields the `Err` outcome with the handler emitting
only the terminal `Error`. -/
theorem c10_witness :
    compute_shortest_path (fun _ => 0) [⟨0, 0⟩] [⟨0, 1⟩] 0 0 =
      .panic "index out of bounds" ∧
    compute_shortest_path (fun _ => 0) [⟨0, 0⟩, ⟨1, 0⟩, ⟨10, 10⟩] [⟨0, 1⟩] 0 2 =
      .err "No path found" ∧
    find_shortest_path (fun _ => 0) none testContext
        ⟨[⟨0, 0⟩, ⟨1, 0⟩, ⟨10, 10⟩], [⟨0, 1⟩], 0, 2⟩ =
      (.ok [.error "No path found"], none) := by
  have hb : ∀ x, Reach [(⟨0, 1⟩ : Edge)] 0 x → x = 0 ∨ x = 1 := by
    intro x hx
    induction hx with
    | refl => exact Or.inl rfl
    | fwd ha hmem ih =>
      rw [List.mem_singleton, Edge.mk.injEq] at hmem
      exact Or.inr hmem.2
    | bwd ha hmem ih =>
      rw [List.mem_singleton, Edge.mk.injEq] at hmem
      exact Or.inl hmem.1
  have hnr : ¬ Reach [(⟨0, 1⟩ : Edge)] 0 2 := by
    intro h
    rcases hb 2 h with h2 | h2
    · exact absurd h2 (by decide)
    · exact absurd h2 (by decide)
  have h1 := (c10_bounds_and_no_path (fun _ => 0) [⟨0, 0⟩] [⟨0, 1⟩] 0 0 testContext).1
    (Or.inl ⟨⟨0, 1⟩, by decide, Or.inr (by decide)⟩)
  have h2 := (c10_bounds_and_no_path (fun _ => 0) [⟨0, 0⟩, ⟨1, 0⟩, ⟨10, 10⟩] [⟨0, 1⟩] 0 2
      testContext).2 (by decide) (by decide) (by decide) hnr
  exact ⟨h1, h2.1, h2.2⟩

end WasmWs
